import Mathlib

/-!
# Verification of the mind-sort deadline-reminder scheduler and
# classification / cache layer

Shallow embedding of the core logic of the repository:

* `src/App.tsx` — `checkReminders` (the staged deadline-notification
  scheduler, lines 416-470);
* `src/services/gemini.ts` — `handleError`, `localClassify`,
  `classifyInput`, `getReadingSuggestion`, `getFallbackSuggestions`,
  `getLinkPreview`;
* `src/types.ts` — the data model (`Item`, `ClassificationResult`,
  `ReadingSuggestion`, `LinkPreviewData`).

Timestamps are modelled as `Int` milliseconds since the epoch (JS
`Date.now()`).  The JS local calendar is modelled by a fixed timezone
offset `tz` (milliseconds to add to a UTC timestamp to obtain local
time); the local calendar day of a timestamp `t` is `(t + tz).fdiv dayMs`.
Remote calls are oracles passed in as explicit parameters; a thrown JS
exception is an `Except.error` carrying the message string.
-/

namespace MindSort

/-- One millisecond-count per local calendar day. -/
def dayMs : Int := 86400000

/-- 15 minutes in milliseconds (`minutesLeft <= 15` in the source is
`diff / 60000 <= 15`, i.e. `diff <= 900000`). -/
def ms15min : Int := 900000

/-- 1 hour in milliseconds (`hoursLeft <= 1` is `diff <= 3600000`). -/
def ms1hour : Int := 3600000

/-- 24 hours in milliseconds (`hoursLeft <= 24` is `diff <= 86400000`). -/
def ms24hour : Int := 86400000

/-- `src/types.ts` `LinkPreviewData`. -/
structure LinkPreviewData where
  url : String
  title : String
  siteName : String
  description : String
  imageUrl : Option String
deriving DecidableEq, Repr

/-- `src/types.ts` `Category`. -/
inductive Category where
  | TODO
  | NOTE
  | READ
  | GOAL
deriving DecidableEq, Repr

/-- `src/types.ts` `Item`.  Optional TS fields become `Option`;
`linkPreview?: LinkPreviewData | null` is `Option (Option LinkPreviewData)`
(`none` = absent, `some none` = explicit `null`). -/
structure Item where
  id : String
  text : String
  category : Category
  createdAt : Int
  completed : Bool
  deadline : Option Int
  notifiedStages : Option (List String)
  linkPreview : Option (Option LinkPreviewData)
deriving DecidableEq, Repr

/-- `const stages = item.notifiedStages || []` in `checkReminders`. -/
def stagesOf (it : Item) : List String :=
  it.notifiedStages.getD []

/-- `new Date(a).toDateString() === new Date(b).toDateString()`:
the two instants fall on the same local calendar day, for the fixed
timezone offset `tz`. -/
def sameCalDay (tz a b : Int) : Bool :=
  (a + tz).fdiv dayMs = (b + tz).fdiv dayMs

/-- The stage-selection chain of `checkReminders` (`src/App.tsx`
lines 437-458): which stage tag (if any) fires for `it` at instant
`now`.  `none` also covers completed items, items without a deadline,
and past-due items (`diff <= 0`). -/
def fireStage (tz now : Int) (it : Item) : Option String :=
  if it.completed then none else
  match it.deadline with
  | none => none
  | some d =>
    let diff := d - now
    let st := stagesOf it
    if diff > 0 then
      if diff ≤ ms15min ∧ "15m" ∉ st then some "15m"
      else if diff > ms15min ∧ diff ≤ ms1hour ∧ "1h" ∉ st then some "1h"
      else if sameCalDay tz d now = true ∧ "today" ∉ st ∧ diff > ms1hour then some "today"
      else if sameCalDay tz d now = false ∧ diff ≤ ms24hour ∧ "24h" ∉ st then some "24h"
      else none
    else none

/-- The per-item body of `checkReminders`: either the item unchanged, or
`{ ...item, notifiedStages: [...stages, stageKey] }` (line 463). -/
def checkItem (tz now : Int) (it : Item) : Item :=
  match fireStage tz now it with
  | none => it
  | some g => { it with notifiedStages := some (stagesOf it ++ [g]) }

/-- One scheduler tick over the whole store:
`currentItems.map(item => ...)` (lines 421-467). -/
def checkReminders (tz now : Int) (items : List Item) : List Item :=
  items.map (checkItem tz now)

/-- Folding a sequence of tick instants over one item. -/
def runTicks (tz : Int) (ts : List Int) (it : Item) : Item :=
  ts.foldl (fun acc t => checkItem tz t acc) it

/-- Position of a stage tag in the spec's fixed priority order
far → day → hour → imminent (smaller = earlier stage). -/
def claimRank (s : String) : Nat :=
  if s = "24h" then 0
  else if s = "today" then 1
  else if s = "1h" then 2
  else if s = "15m" then 3
  else 4

/-- The spec's full ordering property on a `notifiedStages` list: every
tag is strictly earlier in the priority order than every later tag, so
an earlier stage's tag is never appended after a later stage's tag. -/
def claimOrdered (S : List String) : Prop :=
  List.Pairwise (fun a b => claimRank a < claimRank b) S

/-- The three same-day stages (`today`, `1h`, `15m`). -/
def isInner (s : String) : Bool :=
  s = "today" || s = "1h" || s = "15m"

/-- Ordering holds between `a` and `b` whenever both are same-day
stage tags; pairs involving `24h` (or foreign tags) are unconstrained. -/
def innerLeB (a b : String) : Bool :=
  !(isInner a) || !(isInner b) || decide (claimRank a < claimRank b)

/-- The amended ordering property: the same-day tags `today`, `1h`,
`15m` appear in priority order. -/
def innerOrdered (S : List String) : Prop :=
  List.Pairwise (fun a b => innerLeB a b = true) S

/-- Invariant carried across ticks for an item with deadline `d` whose
last processed tick is at instant `t`: the stage list is
duplicate-free, the same-day tags are in priority order, and a fired
inner tag records an upper bound on the remaining time. -/
def Good (t d : Int) (S : List String) : Prop :=
  S.Nodup ∧ innerOrdered S ∧
  ("15m" ∈ S → d - t ≤ ms15min) ∧ ("1h" ∈ S → d - t ≤ ms1hour)

/-- The spec's threshold rule list (§4.1), read literally as a
first-match chain, for the refinement claim about `checkReminders`:
1. `remaining <= 15 minutes` and `imminent` not sent → imminent;
2. else `remaining <= 1 hour` and `hour` not sent → hour;
3. else same local calendar day, `remaining > 1 hour`, `day` not
   sent → day;
4. else `remaining <= 24 hours`, deadline not today, `far` not
   sent → far; 5. else nothing.  Note rule 2 carries no lower bound
on `remaining` beyond falling through rule 1. -/
def specFireStage (tz now : Int) (it : Item) : Option String :=
  if it.completed then none else
  match it.deadline with
  | none => none
  | some d =>
    let diff := d - now
    let st := stagesOf it
    if diff > 0 then
      if diff ≤ ms15min ∧ "15m" ∉ st then some "15m"
      else if diff ≤ ms1hour ∧ "1h" ∉ st then some "1h"
      else if sameCalDay tz d now = true ∧ diff > ms1hour ∧ "today" ∉ st then
        some "today"
      else if diff ≤ ms24hour ∧ sameCalDay tz d now = false ∧ "24h" ∉ st then
        some "24h"
      else none
    else none

/-- The update driven by the spec's literal rule chain. -/
def specCheckItem (tz now : Int) (it : Item) : Item :=
  match specFireStage tz now it with
  | none => it
  | some g => { it with notifiedStages := some (stagesOf it ++ [g]) }

/-- The amended rule chain: rule 2 additionally requires
`remaining > 15 minutes`, exactly as the source guard
`minutesLeft > 15 && hoursLeft <= 1` does. -/
def specFireStageAmended (tz now : Int) (it : Item) : Option String :=
  if it.completed then none else
  match it.deadline with
  | none => none
  | some d =>
    let diff := d - now
    let st := stagesOf it
    if diff > 0 then
      if diff ≤ ms15min ∧ "15m" ∉ st then some "15m"
      else if diff ≤ ms1hour ∧ diff > ms15min ∧ "1h" ∉ st then some "1h"
      else if sameCalDay tz d now = true ∧ diff > ms1hour ∧ "today" ∉ st then
        some "today"
      else if diff ≤ ms24hour ∧ sameCalDay tz d now = false ∧ "24h" ∉ st then
        some "24h"
      else none
    else none

/-- The update driven by the amended rule chain. -/
def specCheckItemAmended (tz now : Int) (it : Item) : Item :=
  match specFireStageAmended tz now it with
  | none => it
  | some g => { it with notifiedStages := some (stagesOf it ++ [g]) }

/-- A concrete item ten minutes from its deadline on the same local
day (deadline 50600000 = day 0 at 14:03:20, clock at 50000000),
with empty stage history. -/
def tenMinItem : Item :=
  { id := "m", text := "call", category := .TODO, createdAt := 0,
    completed := false, deadline := some 50600000,
    notifiedStages := some [], linkPreview := none }

/-- Like `tenMinItem` but with the imminent stage already recorded. -/
def imminentSentItem : Item :=
  { id := "m", text := "call", category := .TODO, createdAt := 0,
    completed := false, deadline := some 50600000,
    notifiedStages := some ["15m"], linkPreview := none }

/-- A concrete completed item. -/
def completedSample : Item :=
  { id := "c", text := "done", category := .TODO, createdAt := 0,
    completed := true, deadline := some 1000,
    notifiedStages := some [], linkPreview := none }

/-- A concrete item without a deadline. -/
def noDeadlineSample : Item :=
  { id := "n", text := "idea", category := .NOTE, createdAt := 0,
    completed := false, deadline := none,
    notifiedStages := none, linkPreview := none }

/-- `src/types.ts` `ClassificationResult`.  The source carries the
deadline as an ISO 8601 string; it is modelled here as the timestamp
that string denotes. -/
structure ClassificationResult where
  category : Category
  refinedText : String
  emoji : String
  deadline : Option Int
deriving DecidableEq, Repr

/-- JS `String.prototype.toLowerCase` (ASCII-faithful). -/
def strToLower (s : String) : String :=
  String.mk (s.toList.map Char.toLower)

/-- Whether `pat` occurs as a contiguous run inside `hay`. -/
def listHasSub : List Char → List Char → Bool
  | pat, [] => pat.isEmpty
  | pat, c :: rest => pat.isPrefixOf (c :: rest) || listHasSub pat rest

/-- JS `String.prototype.includes`. -/
def strIncludes (s pat : String) : Bool :=
  listHasSub pat.toList s.toList

/-- JS `String.prototype.startsWith`. -/
def strStarts (s pre : String) : Bool :=
  pre.toList.isPrefixOf s.toList

/-- `d.setDate(d.getDate() + 1); d.setHours(9, 0, 0, 0)` starting from
`now`: 09:00 local on the next calendar day, as a UTC timestamp. -/
def nextLocalDay9 (tz now : Int) : Int :=
  ((now + tz).fdiv dayMs + 1) * dayMs + 9 * 3600000 - tz

/-- `d.setHours(20, 0, 0, 0)` starting from `now`: 20:00 local on the
same calendar day, as a UTC timestamp. -/
def sameLocalDay20 (tz now : Int) : Int :=
  (now + tz).fdiv dayMs * dayMs + 20 * 3600000 - tz

/-- `src/services/gemini.ts` `localClassify` (lines 53-90): keyword
table in fixed order read → goal → note → default task, then the two
relative-date phrases.  The emoji literals are the source's
(transcoded). -/
def localClassify (tz now : Int) (input : String) : ClassificationResult :=
  let lower := strToLower input
  let isRead := strIncludes lower "read " || strIncludes lower "book" ||
    strIncludes lower "article" || strStarts input "http"
  let isGoal := strIncludes lower "goal" || strIncludes lower "achieve" ||
    strIncludes lower "learn to"
  let isNote := strStarts lower "note" || strIncludes lower "idea:" ||
    strIncludes lower "remember"
  let category :=
    if isRead then Category.READ
    else if isGoal then Category.GOAL
    else if isNote then Category.NOTE
    else Category.TODO
  let emoji :=
    if isRead then "📚"
    else if isGoal then "🎯"
    else if isNote then "📝"
    else "⚡"
  let deadline :=
    if strIncludes lower "tomorrow" then some (nextLocalDay9 tz now)
    else if strIncludes lower "tonight" then some (sameLocalDay20 tz now)
    else none
  { category := category, refinedText := input, emoji := emoji,
    deadline := deadline }

/-- `src/services/gemini.ts` `handleError` (lines 40-49).  It throws
on every input: auth-looking messages become `AUTH_ERROR`, quota-looking
messages become `QUOTA_ERROR`, everything else is rethrown as is. -/
def handleError (msg : String) : Except String Unit :=
  if strIncludes msg "400" || strIncludes msg "API key not valid" ||
      strIncludes msg "API_KEY_INVALID" then
    Except.error "AUTH_ERROR"
  else if strIncludes msg "429" || strIncludes msg "Quota exceeded" ||
      strIncludes msg "RESOURCE_EXHAUSTED" then
    Except.error "QUOTA_ERROR"
  else
    Except.error msg

/-- `src/services/gemini.ts` `classifyInput` (lines 94-132).  The
remote call (model request + JSON parse) is the oracle `remote`; a
rejection carries the error message.  The `catch` block runs
`handleError(error)` and only then `return localClassify(input)` —
since `handleError` always throws, that bind short-circuits. -/
def classifyInput (tz now : Int) (input apiKey : String)
    (remote : Except String ClassificationResult) :
    Except String ClassificationResult :=
  if apiKey = "" then Except.ok (localClassify tz now input)
  else
    match remote with
    | Except.ok r => Except.ok r
    | Except.error e =>
      (handleError e).bind (fun _ => Except.ok (localClassify tz now input))

/-- `src/services/gemini.ts` `READING_CACHE_TTL` (24 hours). -/
def READING_CACHE_TTL : Int := 86400000

/-- `src/types.ts` `ReadingSuggestion`. -/
structure ReadingSuggestion where
  title : String
  url : String
  source : String
  reason : String
deriving DecidableEq, Repr

/-- The persisted reading-cache entry `{ timestamp, data[] }`. -/
structure CacheEntry where
  timestamp : Int
  data : List ReadingSuggestion
deriving DecidableEq, Repr

/-- `list.filter(item => !userReadItems.includes(item.url))`. -/
def unreadOf (userReadItems : List String)
    (l : List ReadingSuggestion) : List ReadingSuggestion :=
  l.filter (fun i => !(userReadItems.contains i.url))

/-- The static pool inside `getFallbackSuggestions`
(`src/services/gemini.ts` lines 262-306). -/
def staticFallbackPool : List ReadingSuggestion :=
  [ { title := "The Unreasonable Effectiveness of Recurrent Neural Networks",
      url := "https://karpathy.github.io/2015/05/21/rnn-effectiveness/",
      source := "Karpathy Blog", reason := "A classic essential read on RNNs." },
    { title := "Attention Is All You Need",
      url := "https://arxiv.org/abs/1706.03762",
      source := "ArXiv", reason := "The foundation of modern Transformers." },
    { title := "Prompt Engineering Guide",
      url := "https://www.promptingguide.ai/",
      source := "PromptingGuide",
      reason := "Learn how to communicate with AI effectively." },
    { title := "The Illustrated Transformer",
      url := "http://jalammar.github.io/illustrated-transformer/",
      source := "Jay Alammar",
      reason := "Best visual explanation of transformers." },
    { title := "OpenAI GPT-4 Technical Report",
      url := "https://arxiv.org/abs/2303.08774",
      source := "ArXiv", reason := "Deep dive into the architecture of GPT-4." },
    { title := "Distill.pub: A Gentle Introduction to Graph Neural Networks",
      url := "https://distill.pub/2021/gnn-intro/",
      source := "Distill",
      reason := "Interactive article on Graph Neural Networks." },
    { title := "Why AI Will Save the World",
      url := "https://a16z.com/why-ai-will-save-the-world/",
      source := "Marc Andreessen",
      reason := "An optimistic perspective on AI's future." } ]

/-- `getFallbackSuggestions`: filter by read history, shuffle
(`sort(() => 0.5 - Math.random())`, the oracle `shuffle` standing for
the random permutation), take 3. -/
def getFallbackSuggestions (userReadItems : List String)
    (shuffle : List ReadingSuggestion → List ReadingSuggestion) :
    List ReadingSuggestion :=
  (shuffle (unreadOf userReadItems staticFallbackPool)).take 3

/-- `validItems`: per-field truthiness defaults applied to the parsed
remote batch (`src/services/gemini.ts` lines 237-242). -/
def normalizeSuggestion (i : ReadingSuggestion) : ReadingSuggestion :=
  { title := if i.title = "" then "Interesting Read" else i.title,
    url := if i.url = "" then "#" else i.url,
    source := if i.source = "" then "Web" else i.source,
    reason := if i.reason = "" then "Recommended" else i.reason }

/-- The `catch` block of `getReadingSuggestion` (lines 252-259): after
`handleError(error)` rethrows, the stale-cache / static-fallback
returns below it are unreachable. -/
def grsCatch (cached : Option CacheEntry) (userReadItems : List String)
    (shuffle : List ReadingSuggestion → List ReadingSuggestion)
    (e : String) : Except String (List ReadingSuggestion) :=
  (handleError e).bind (fun _ =>
    match cached with
    | some c => Except.ok ((unreadOf userReadItems c.data).take 3)
    | none => Except.ok (getFallbackSuggestions userReadItems shuffle))

/-- Result of one `getReadingSuggestion` call: the returned (or
thrown) value, whether the remote recommender was invoked, and the
persisted cache entry afterwards. -/
structure GRSOut where
  result : Except String (List ReadingSuggestion)
  remoteCalled : Bool
  newCache : Option CacheEntry

/-- `src/services/gemini.ts` `getReadingSuggestion` (lines 160-260).
`cached` is the parsed localStorage entry, `remote` the oracle for the
model call (its thrown message on rejection), `shuffle` the oracle for
the random sort inside the static fallback. -/
def getReadingSuggestion (cached : Option CacheEntry)
    (userReadItems : List String) (forceRefresh : Bool) (apiKey : String)
    (now : Int) (remote : Except String (List ReadingSuggestion))
    (shuffle : List ReadingSuggestion → List ReadingSuggestion) : GRSOut :=
  let freshHit : Option (List ReadingSuggestion) :=
    match cached with
    | some c =>
      if forceRefresh = false ∧ now - c.timestamp < READING_CACHE_TTL then
        let unreadCached := unreadOf userReadItems c.data
        if unreadCached ≠ [] then some (unreadCached.take 3) else none
      else none
    | none => none
  match freshHit with
  | some r => { result := Except.ok r, remoteCalled := false, newCache := cached }
  | none =>
    if apiKey = "" then
      match cached with
      | some c =>
        let unreadExpired := unreadOf userReadItems c.data
        if unreadExpired ≠ [] then
          { result := Except.ok (unreadExpired.take 3), remoteCalled := false,
            newCache := cached }
        else
          { result := Except.ok (getFallbackSuggestions userReadItems shuffle),
            remoteCalled := false, newCache := cached }
      | none =>
        { result := Except.ok (getFallbackSuggestions userReadItems shuffle),
          remoteCalled := false, newCache := cached }
    else
      match remote with
      | Except.ok items =>
        if items = [] then
          { result := grsCatch cached userReadItems shuffle
              "Invalid format or empty list",
            remoteCalled := true, newCache := cached }
        else
          let validItems := items.map normalizeSuggestion
          { result := Except.ok ((unreadOf userReadItems validItems).take 3),
            remoteCalled := true,
            newCache := some { timestamp := now, data := validItems } }
      | Except.error e =>
        { result := grsCatch cached userReadItems shuffle e,
          remoteCalled := true, newCache := cached }

/-- Outcome of the remote metadata call inside `getLinkPreview`:
a parsed JSON object, an empty response text (`if (!text) return
null`), or a thrown error message. -/
inductive LinkOutcome where
  | ok (title siteName description : String)
  | noText
  | err (msg : String)

/-- `src/services/gemini.ts` `getLinkPreview` (lines 314-363).
`cache` is the module-level `linkPreviewCache` as an association list,
`host` stands for `new URL(url).hostname` (a platform call).  Returns
the call's outcome and the cache afterwards.  In the `catch` block,
`handleError(e)` rethrows, so the fallback record below it is built
and cached only on the unreachable arm. -/
def getLinkPreview (cache : List (String × LinkPreviewData))
    (url apiKey host : String) (remote : LinkOutcome) :
    Except String (Option LinkPreviewData) × List (String × LinkPreviewData) :=
  match cache.lookup url with
  | some p => (Except.ok (some p), cache)
  | none =>
    if apiKey = "" then (Except.ok none, cache)
    else
      match remote with
      | LinkOutcome.noText => (Except.ok none, cache)
      | LinkOutcome.ok t s dsc =>
        let preview : LinkPreviewData :=
          { url := url, title := if t = "" then "No Title" else t,
            siteName := if s = "" then host else s,
            description := dsc, imageUrl := none }
        (Except.ok (some preview), (url, preview) :: cache)
      | LinkOutcome.err e =>
        let fallback : LinkPreviewData :=
          { url := url, title := url, siteName := host,
            description := "", imageUrl := none }
        match (handleError e).bind
            (fun _ => Except.ok (some fallback)) with
        | Except.error m => (Except.error m, cache)
        | Except.ok v => (Except.ok v, (url, fallback) :: cache)

/-- A concrete resolved link preview. -/
def samplePreview : LinkPreviewData :=
  { url := "https://e.com/p", title := "T", siteName := "e.com",
    description := "", imageUrl := none }

/-- A concrete past-due item (deadline 50, clock at 100). -/
def pastdueSample : Item :=
  { id := "a", text := "t", category := .TODO, createdAt := 0,
    completed := false, deadline := some 50,
    notifiedStages := some ["today"], linkPreview := none }

/-- A concrete item whose deadline (00:05 of local day 1, at
timezone offset 0) is minutes away but on the next calendar day
relative to the tick instants 23:53:00 and 23:53:30 of day 0. -/
def crossMidnightItem : Item :=
  { id := "x", text := "ship it", category := .TODO, createdAt := 0,
    completed := false, deadline := some 86700000,
    notifiedStages := some [], linkPreview := none }

end MindSort

namespace MindSort

/-- Reusable: a tick never changes a completed item. -/
theorem checkItem_completed (tz now : Int) (it : Item)
    (h : it.completed = true) : checkItem tz now it = it := by
  simp [checkItem, fireStage, h]

/-- Reusable: a tick never changes an item without a deadline. -/
theorem checkItem_no_deadline (tz now : Int) (it : Item)
    (h : it.deadline = none) : checkItem tz now it = it := by
  simp [checkItem, fireStage, h]

/-- C1: one scheduler tick fires no stage and leaves `notifiedStages`
unchanged for every item whose deadline is not in the future
(`remaining = deadline - now <= 0`), whatever `notifiedStages` holds. -/
theorem pastdue_tick_noop (tz now : Int) (it : Item) (d : Int)
    (hd : it.deadline = some d) (hpast : d - now ≤ 0) :
    fireStage tz now it = none ∧ checkItem tz now it = it := by
  have hfire : fireStage tz now it = none := by
    unfold fireStage
    cases hc : it.completed with
    | true => simp [hc]
    | false =>
      simp only [hc, hd]
      simp only [Bool.false_eq_true, if_false]
      have : ¬ (d - now > 0) := by omega
      simp [this]
  exact ⟨hfire, by simp [checkItem, hfire]⟩

/-- Witness for C1 at a concrete past-due item. -/
theorem pastdue_tick_noop_witness :
    fireStage 0 100 pastdueSample = none ∧
    checkItem 0 100 pastdueSample = pastdueSample :=
  pastdue_tick_noop 0 100 pastdueSample 50 rfl (by decide)

/-- Reusable: a tick changes at most the `notifiedStages` field. -/
theorem checkItem_frame (tz now : Int) (it : Item) :
    checkItem tz now it =
      { it with notifiedStages := (checkItem tz now it).notifiedStages } := by
  unfold checkItem
  cases fireStage tz now it <;> rfl

/-- Reusable: a tick preserves the deadline. -/
theorem checkItem_deadline (tz now : Int) (it : Item) :
    (checkItem tz now it).deadline = it.deadline := by
  unfold checkItem
  cases fireStage tz now it <;> rfl

/-- Reusable: a tick preserves the completion flag. -/
theorem checkItem_completed_eq (tz now : Int) (it : Item) :
    (checkItem tz now it).completed = it.completed := by
  unfold checkItem
  cases fireStage tz now it <;> rfl

/-- Reusable: exactly what holds when a stage fires. -/
theorem fireStage_spec (tz t : Int) (it : Item) (d : Int) (g : String)
    (hd : it.deadline = some d) (hc : it.completed = false)
    (h : fireStage tz t it = some g) :
    (g = "15m" ∧ 0 < d - t ∧ d - t ≤ ms15min ∧ "15m" ∉ stagesOf it) ∨
    (g = "1h" ∧ ms15min < d - t ∧ d - t ≤ ms1hour ∧ "1h" ∉ stagesOf it) ∨
    (g = "today" ∧ ms1hour < d - t ∧ sameCalDay tz d t = true ∧
      "today" ∉ stagesOf it) ∨
    (g = "24h" ∧ 0 < d - t ∧ d - t ≤ ms24hour ∧ sameCalDay tz d t = false ∧
      "24h" ∉ stagesOf it) := by
  unfold fireStage at h
  simp only [hc, hd, Bool.false_eq_true, if_false] at h
  split_ifs at h with h0 h1 h2 h3 h4 <;>
    simp only [Option.some.injEq] at h
  · exact Or.inl ⟨h.symm, by omega, h1.1, h1.2⟩
  · exact Or.inr (Or.inl ⟨h.symm, h2.1, h2.2.1, h2.2.2⟩)
  · exact Or.inr (Or.inr (Or.inl ⟨h.symm, h3.2.2, h3.1, h3.2.1⟩))
  · exact Or.inr (Or.inr (Or.inr ⟨h.symm, by omega, h4.2.1, h4.1, h4.2.2⟩))

/-- Reusable: when a stage fires, the tag is appended at the end. -/
theorem checkItem_stages (tz now : Int) (it : Item) :
    (fireStage tz now it = none ∧ checkItem tz now it = it) ∨
    (∃ g, fireStage tz now it = some g ∧
      stagesOf (checkItem tz now it) = stagesOf it ++ [g]) := by
  cases h : fireStage tz now it with
  | none => exact Or.inl ⟨rfl, by simp [checkItem, h]⟩
  | some g => exact Or.inr ⟨g, rfl, by simp [checkItem, h, stagesOf]⟩

/-- The invariant only weakens as the clock moves forward. -/
theorem good_mono {t t' d : Int} {S : List String}
    (hle : t ≤ t') (hg : Good t d S) : Good t' d S := by
  obtain ⟨h1, h2, h3, h4⟩ := hg
  exact ⟨h1, h2, fun h => by have := h3 h; omega, fun h => by have := h4 h; omega⟩

/-- One tick preserves the invariant. -/
theorem good_step (tz t d : Int) (it : Item)
    (hd : it.deadline = some d) (hc : it.completed = false)
    (hg : Good t d (stagesOf it)) :
    Good t d (stagesOf (checkItem tz t it)) := by
  rcases checkItem_stages tz t it with ⟨_, heq⟩ | ⟨g, hf, heq⟩
  · rw [heq]; exact hg
  rw [heq]
  obtain ⟨hnd, hord, hb15, hb1h⟩ := hg
  have hspec := fireStage_spec tz t it d g hd hc hf
  have hg_notmem : g ∉ stagesOf it := by
    rcases hspec with ⟨he, _, _, hn⟩ | ⟨he, _, _, hn⟩ | ⟨he, _, _, hn⟩ |
      ⟨he, _, _, _, hn⟩ <;> rw [he] <;> exact hn
  refine ⟨?_, ?_, ?_, ?_⟩
  · rw [List.nodup_append]
    exact ⟨hnd, List.nodup_singleton g, by
      simp only [List.disjoint_singleton]; exact hg_notmem⟩
  · rw [innerOrdered, List.pairwise_append]
    refine ⟨hord, List.pairwise_singleton _ g, ?_⟩
    intro a ha b hb
    simp only [List.mem_singleton] at hb
    subst hb
    rcases hspec with ⟨he, _, _, _⟩ | ⟨he, hlo, _, _⟩ | ⟨he, hlo, _, _⟩ |
      ⟨he, _, _, _, _⟩ <;> subst he
    · -- g = "15m": every inner tag other than "15m" ranks below it
      by_cases h1 : a = "today"
      · subst h1; decide
      by_cases h2 : a = "1h"
      · subst h2; decide
      by_cases h3 : a = "15m"
      · exact absurd (h3 ▸ ha) hg_notmem
      simp [innerLeB, isInner, h1, h2, h3]
    · -- g = "1h": "15m" cannot already be present (time bound)
      by_cases h1 : a = "today"
      · subst h1; decide
      by_cases h2 : a = "1h"
      · exact absurd (h2 ▸ ha) hg_notmem
      by_cases h3 : a = "15m"
      · exact absurd (hb15 (h3 ▸ ha)) (by omega)
      simp [innerLeB, isInner, h1, h2, h3]
    · -- g = "today": no inner tag can already be present (time bounds)
      by_cases h1 : a = "today"
      · exact absurd (h1 ▸ ha) hg_notmem
      by_cases h2 : a = "1h"
      · exact absurd (hb1h (h2 ▸ ha)) (by omega)
      by_cases h3 : a = "15m"
      · exact absurd (hb15 (h3 ▸ ha))
          (by have e1 : ms15min = 900000 := rfl
              have e2 : ms1hour = 3600000 := rfl
              omega)
      simp [innerLeB, isInner, h1, h2, h3]
    · -- g = "24h" is not an inner tag: unconstrained
      simp [innerLeB, isInner]
  · intro hm
    rcases List.mem_append.mp hm with hm | hm
    · exact hb15 hm
    · simp only [List.mem_singleton] at hm
      rcases hspec with ⟨he, _, hhi, _⟩ | ⟨he, _, _, _⟩ | ⟨he, _, _, _⟩ |
        ⟨he, _, _, _, _⟩
      · exact hhi
      · rw [he] at hm; exact absurd hm (by decide)
      · rw [he] at hm; exact absurd hm (by decide)
      · rw [he] at hm; exact absurd hm (by decide)
  · intro hm
    rcases List.mem_append.mp hm with hm | hm
    · exact hb1h hm
    · simp only [List.mem_singleton] at hm
      rcases hspec with ⟨he, _, _, _⟩ | ⟨he, _, hhi, _⟩ | ⟨he, _, _, _⟩ |
        ⟨he, _, _, _, _⟩
      · rw [he] at hm; exact absurd hm (by decide)
      · exact hhi
      · rw [he] at hm; exact absurd hm (by decide)
      · rw [he] at hm; exact absurd hm (by decide)

/-- Running ticks whose instants dominate `t` keeps the invariant. -/
theorem runTicks_good (tz d : Int) : ∀ (ts : List Int) (t : Int) (it : Item),
    it.deadline = some d → it.completed = false →
    List.Chain (· ≤ ·) t ts → Good t d (stagesOf it) →
    ∃ t2, Good t2 d (stagesOf (runTicks tz ts it)) := by
  intro ts
  induction ts with
  | nil => intro t it _ _ _ hg; exact ⟨t, hg⟩
  | cons u rest ih =>
    intro t it hd hc hch hg
    rw [List.chain_cons] at hch
    have hgu : Good u d (stagesOf it) := good_mono hch.1 hg
    have hstep : Good u d (stagesOf (checkItem tz u it)) :=
      good_step tz u d it hd hc hgu
    have hd2 : (checkItem tz u it).deadline = some d := by
      rw [checkItem_deadline]; exact hd
    have hc2 : (checkItem tz u it).completed = false := by
      rw [checkItem_completed_eq]; exact hc
    exact ih u (checkItem tz u it) hd2 hc2 hch.2 hstep

/-- C2 counterexample: starting from empty `notifiedStages`, two ticks
with non-decreasing clock (23:53:00 then 23:53:30, deadline 00:05 of
the next local day) append `15m` and then `24h`, i.e. the far tag is
appended after the imminent tag — the fixed priority order
far → day → hour → imminent is violated. -/
theorem stage_order_counterexample :
    List.Chain' (· ≤ ·) [(85980000 : Int), 86010000] ∧
    stagesOf crossMidnightItem = [] ∧
    stagesOf (runTicks 0 [85980000, 86010000] crossMidnightItem) =
      ["15m", "24h"] ∧
    ¬ claimOrdered
      (stagesOf (runTicks 0 [85980000, 86010000] crossMidnightItem)) := by
  have hrun : stagesOf (runTicks 0 [85980000, 86010000] crossMidnightItem) =
      ["15m", "24h"] := by decide
  refine ⟨?_, rfl, hrun, ?_⟩
  · exact List.chain'_cons.mpr ⟨by decide, List.chain'_singleton _⟩
  · intro h
    rw [hrun, claimOrdered] at h
    cases h with
    | cons hrel _ =>
      exact absurd (hrel "24h" (by simp)) (by decide)

/-- C2 amended: starting from an item with empty `notifiedStages`,
across any sequence of ticks with non-decreasing clock, the stage
list never contains a duplicate tag, and the same-day tags
`today` → `1h` → `15m` appear only in priority order; the far tag
`24h` is exempt (it can be appended after a later stage's tag when
the deadline falls on a different local calendar day, as the
counterexample shows). -/
theorem stage_order_amended (tz d : Int) (it : Item) (ts : List Int)
    (hd : it.deadline = some d) (hc : it.completed = false)
    (hs : stagesOf it = []) (hts : List.Chain' (· ≤ ·) ts) :
    (stagesOf (runTicks tz ts it)).Nodup ∧
    innerOrdered (stagesOf (runTicks tz ts it)) := by
  cases ts with
  | nil => rw [runTicks, List.foldl_nil, hs]; exact ⟨List.nodup_nil, List.Pairwise.nil⟩
  | cons t rest =>
    have hch : List.Chain (· ≤ ·) t (t :: rest) :=
      List.Chain.cons (le_refl t) hts
    have hg : Good t d (stagesOf it) := by
      rw [hs]
      exact ⟨List.nodup_nil, List.Pairwise.nil, by simp, by simp⟩
    obtain ⟨t2, h1, h2, _, _⟩ := runTicks_good tz d (t :: rest) t it hd hc hch hg
    exact ⟨h1, h2⟩

/-- Reusable: the stage chain of an active item, written out over an
explicit stage list. -/
theorem fireStage_active (tz now d : Int) (st : List String) (it : Item)
    (hc : it.completed = false) (hd : it.deadline = some d)
    (hst : stagesOf it = st) :
    fireStage tz now it =
      (if d - now > 0 then
        if d - now ≤ ms15min ∧ "15m" ∉ st then some "15m"
        else if d - now > ms15min ∧ d - now ≤ ms1hour ∧ "1h" ∉ st then
          some "1h"
        else if sameCalDay tz d now = true ∧ "today" ∉ st ∧
            d - now > ms1hour then some "today"
        else if sameCalDay tz d now = false ∧ d - now ≤ ms24hour ∧
            "24h" ∉ st then some "24h"
        else none
      else none) := by
  subst hst
  unfold fireStage
  rw [hc, hd]
  rfl

/-- Reusable: a stage only fires for an active item with a deadline. -/
theorem fireStage_some_facts (tz now : Int) (it : Item) (g : String)
    (h : fireStage tz now it = some g) :
    it.completed = false ∧ ∃ d, it.deadline = some d := by
  unfold fireStage at h
  cases hcpl : it.completed with
  | true => rw [hcpl] at h; simp at h
  | false =>
    cases hdl : it.deadline with
    | none => rw [hcpl, hdl] at h; simp at h
    | some d => exact ⟨rfl, d, rfl⟩

/-- Reusable: a fired tag was not yet recorded. -/
theorem fireStage_some_notmem (tz now : Int) (it : Item) (g : String)
    (h : fireStage tz now it = some g) : g ∉ stagesOf it := by
  obtain ⟨hc, d, hd⟩ := fireStage_some_facts tz now it g h
  rcases fireStage_spec tz now it d g hd hc h with
    ⟨he, _, _, hn⟩ | ⟨he, _, _, hn⟩ | ⟨he, _, _, hn⟩ | ⟨he, _, _, _, hn⟩ <;>
    rw [he] <;> exact hn

/-- Reusable: the source's stage chain equals the spec chain amended
with the `remaining > 15 minutes` lower bound on rule 2. -/
theorem fireStage_eq_spec_amended (tz now : Int) (it : Item) :
    fireStage tz now it = specFireStageAmended tz now it := by
  unfold fireStage specFireStageAmended
  cases it.completed with
  | true => rfl
  | false =>
    cases it.deadline with
    | none => rfl
    | some d =>
      simp only [Bool.false_eq_true, if_false]
      refine if_congr Iff.rfl ?_ rfl
      refine if_congr Iff.rfl rfl ?_
      refine if_congr ⟨fun ⟨x, y, z⟩ => ⟨y, x, z⟩,
        fun ⟨x, y, z⟩ => ⟨y, x, z⟩⟩ rfl ?_
      refine if_congr ⟨fun ⟨x, y, z⟩ => ⟨x, z, y⟩,
        fun ⟨x, y, z⟩ => ⟨x, z, y⟩⟩ rfl ?_
      exact if_congr ⟨fun ⟨x, y, z⟩ => ⟨y, x, z⟩,
        fun ⟨x, y, z⟩ => ⟨y, x, z⟩⟩ rfl rfl

/-- Witness for the amended C2 at the cross-midnight run. -/
theorem stage_order_amended_witness :
    (stagesOf (runTicks 0 [85980000, 86010000] crossMidnightItem)).Nodup ∧
    innerOrdered (stagesOf (runTicks 0 [85980000, 86010000] crossMidnightItem)) :=
  stage_order_amended 0 86700000 crossMidnightItem [85980000, 86010000]
    rfl rfl rfl (List.chain'_cons.mpr ⟨by decide, List.chain'_singleton _⟩)

/-- C3 counterexample: an item ten minutes from a same-day deadline
whose imminent stage is already recorded.  The claim's literal rule
chain (`else remaining <= 1 hour and hour not sent fires hour`) fires
the hour stage here, but the source's `minutesLeft > 15` guard makes
the code fire nothing, so the code does not implement the rule list
as stated. -/
theorem rule_chain_counterexample :
    fireStage 0 50000000 imminentSentItem = none ∧
    specFireStage 0 50000000 imminentSentItem = some "1h" ∧
    checkItem 0 50000000 imminentSentItem ≠
      specCheckItem 0 50000000 imminentSentItem := by decide

/-- C3 amended: per tick and item the code fires at most one stage by
first match over the rule chain whose rule 2 additionally requires
`remaining > 15 minutes`; and the concrete scenario: a not-completed
item with deadline `now + 10 minutes` and empty `notifiedStages` gets
exactly the imminent tag. -/
theorem rule_chain_amended :
    (∀ (tz now : Int) (it : Item),
      checkItem tz now it = specCheckItemAmended tz now it) ∧
    (∀ (tz now : Int) (it : Item), it.deadline = some (now + 600000) →
      it.completed = false → stagesOf it = [] →
      stagesOf (checkItem tz now it) = ["15m"]) := by
  constructor
  · intro tz now it
    unfold checkItem specCheckItemAmended
    rw [fireStage_eq_spec_amended]
  · intro tz now it hd hc hs
    have hf : fireStage tz now it = some "15m" := by
      unfold fireStage
      rw [hc, hd, hs]
      have e1 : ms15min = 900000 := rfl
      have h0 : now + 600000 - now > 0 := by omega
      have h1 : now + 600000 - now ≤ ms15min ∧ "15m" ∉ ([] : List String) :=
        ⟨by omega, by simp⟩
      simp only [Bool.false_eq_true, if_false, if_pos h0, if_pos h1]
    have hs2 : it.notifiedStages.getD [] = [] := hs
    simp [checkItem, hf, stagesOf, hs2]

/-- Witness for the amended C3: the refinement at a concrete tick, and
the ten-minute scenario at `now = 50000000`. -/
theorem rule_chain_amended_witness :
    checkItem 0 50000000 imminentSentItem =
      specCheckItemAmended 0 50000000 imminentSentItem ∧
    stagesOf (checkItem 0 50000000 tenMinItem) = ["15m"] :=
  ⟨rule_chain_amended.1 0 50000000 imminentSentItem,
   rule_chain_amended.2 0 50000000 tenMinItem (by decide) rfl rfl⟩

/-- C4 counterexample: ten minutes before a same-day deadline with no
stage history, the tick fires the imminent stage whose earlier stages
(day and hour) were skipped, yet the skipped tags are not marked in
`notifiedStages` on that tick — they are not "retroactively fired"
as the claim states. -/
theorem retro_marking_counterexample :
    fireStage 0 50000000 tenMinItem = some "15m" ∧
    stagesOf (checkItem 0 50000000 tenMinItem) = ["15m"] ∧
    "1h" ∉ stagesOf (checkItem 0 50000000 tenMinItem) ∧
    "today" ∉ stagesOf (checkItem 0 50000000 tenMinItem) := by decide

/-- C4 amended: when the scheduler wakes up late and a later stage is
emitted, the skipped earlier stages are not marked at all: a tick
appends exactly the single fired tag (never a tag already recorded)
or changes nothing. -/
theorem retro_marking_amended (tz now : Int) (it : Item) :
    checkItem tz now it = it ∨
    ∃ g, fireStage tz now it = some g ∧ g ∉ stagesOf it ∧
      (checkItem tz now it).notifiedStages = some (stagesOf it ++ [g]) := by
  cases h : fireStage tz now it with
  | none => exact Or.inl (by simp [checkItem, h])
  | some g =>
    exact Or.inr ⟨g, rfl, fireStage_some_notmem tz now it g h,
      by simp [checkItem, h]⟩

/-- C5 counterexample: evaluating the scheduler twice at the same
instant for the cross-midnight item is not a no-op: the first run
fires `15m`, and the second run — at the very same instant — fires
`24h` (the far rule matches because the deadline is on the next local
calendar day), appending a second tag and enqueuing a second
notification. -/
theorem idempotence_counterexample :
    stagesOf (checkItem 0 85980000 crossMidnightItem) = ["15m"] ∧
    fireStage 0 85980000 (checkItem 0 85980000 crossMidnightItem) =
      some "24h" ∧
    checkItem 0 85980000 (checkItem 0 85980000 crossMidnightItem) ≠
      checkItem 0 85980000 crossMidnightItem := by decide

/-- C5 amended: the evaluation is idempotent at any instant that falls
on the same local calendar day as the item's deadline: the second run
changes nothing (when the deadline is on a later day, the second run
can still fire the unfired far stage, as the counterexample shows). -/
theorem idempotence_amended (tz now : Int) (it : Item) (d : Int)
    (hd : it.deadline = some d) (hday : sameCalDay tz d now = true) :
    checkItem tz now (checkItem tz now it) = checkItem tz now it := by
  cases h : fireStage tz now it with
  | none =>
    have : checkItem tz now it = it := by simp [checkItem, h]
    rw [this, checkItem, h]
  | some g =>
    obtain ⟨hc, _⟩ := fireStage_some_facts tz now it g h
    have hd2 : (checkItem tz now it).deadline = some d := by
      rw [checkItem_deadline]; exact hd
    have hc2 : (checkItem tz now it).completed = false := by
      rw [checkItem_completed_eq]; exact hc
    have hst2 : stagesOf (checkItem tz now it) = stagesOf it ++ [g] := by
      simp [checkItem, h, stagesOf]
    have hspec := fireStage_spec tz now it d g hd hc h
    have e1 : ms15min = 900000 := rfl
    have e2 : ms1hour = 3600000 := rfl
    have hnone : fireStage tz now (checkItem tz now it) = none := by
      rw [fireStage_active tz now d (stagesOf it ++ [g])
        (checkItem tz now it) hc2 hd2 hst2]
      rcases hspec with ⟨he, b0, b1, _⟩ | ⟨he, b0, b1, _⟩ |
        ⟨he, b0, _, _⟩ | ⟨he, _, _, hsd, _⟩
      · -- first run fired "15m"
        subst he
        rw [if_pos b0, if_neg, if_neg, if_neg, if_neg]
        · rintro ⟨hsd, _, _⟩; rw [hday] at hsd; exact Bool.noConfusion hsd
        · rintro ⟨_, _, hlt⟩; omega
        · rintro ⟨hlt, _, _⟩; omega
        · rintro ⟨_, hnm⟩
          exact hnm (List.mem_append_right _ (List.mem_singleton_self _))
      · -- first run fired "1h"
        subst he
        rw [if_pos (by omega), if_neg, if_neg, if_neg, if_neg]
        · rintro ⟨hsd, _, _⟩; rw [hday] at hsd; exact Bool.noConfusion hsd
        · rintro ⟨_, _, hlt⟩; omega
        · rintro ⟨_, _, hnm⟩
          exact hnm (List.mem_append_right _ (List.mem_singleton_self _))
        · rintro ⟨hle, _⟩; omega
      · -- first run fired "today"
        subst he
        rw [if_pos (by omega), if_neg, if_neg, if_neg, if_neg]
        · rintro ⟨hsd, _, _⟩; rw [hday] at hsd; exact Bool.noConfusion hsd
        · rintro ⟨_, hnm, _⟩
          exact hnm (List.mem_append_right _ (List.mem_singleton_self _))
        · rintro ⟨_, hle, _⟩; omega
        · rintro ⟨hle, _⟩; omega
      · -- a far firing contradicts the same-day hypothesis
        rw [hday] at hsd; exact Bool.noConfusion hsd
    rw [checkItem, hnone]

/-- Witness for the amended C5: same-day idempotence at `tenMinItem`. -/
theorem idempotence_amended_witness :
    checkItem 0 50000000 (checkItem 0 50000000 tenMinItem) =
      checkItem 0 50000000 tenMinItem :=
  idempotence_amended 0 50000000 tenMinItem 50600000 rfl (by decide)

/-- C6: `classifyInput` falls back to `localClassify` only when the
key is absent; when the remote call fails, `handleError` rethrows
(converting auth- and quota-looking messages), so the error escapes
the call and the `return localClassify(input)` after it never runs —
contradicting the claim that every remote failure resolves to the
local fallback. -/
theorem classify_fallback_dead :
    classifyInput 0 0 "buy milk" "" (Except.error "network timeout") =
      Except.ok (localClassify 0 0 "buy milk") ∧
    classifyInput 0 0 "buy milk" "key" (Except.error "network timeout") =
      Except.error "network timeout" ∧
    classifyInput 0 0 "buy milk" "key" (Except.error "API key not valid") =
      Except.error "AUTH_ERROR" ∧
    classifyInput 0 0 "buy milk" "key" (Except.error "Quota exceeded") =
      Except.error "QUOTA_ERROR" :=
  ⟨rfl, rfl, rfl, rfl⟩

/-- C7: the local fallback classifier checks its keyword table in the
fixed order reading → goal → note → default task, and recognizes
exactly the two relative-date phrases: `tomorrow` → next calendar day
09:00 local, else `tonight` → same day 20:00 local, else no
deadline. -/
theorem local_classify_table :
    (∀ (tz now : Int) (input : String),
      (strIncludes (strToLower input) "read " ||
       strIncludes (strToLower input) "book" ||
       strIncludes (strToLower input) "article" ||
       strStarts input "http") = true →
      (localClassify tz now input).category = Category.READ) ∧
    (∀ (tz now : Int) (input : String),
      (strIncludes (strToLower input) "read " ||
       strIncludes (strToLower input) "book" ||
       strIncludes (strToLower input) "article" ||
       strStarts input "http") = false →
      (strIncludes (strToLower input) "goal" ||
       strIncludes (strToLower input) "achieve" ||
       strIncludes (strToLower input) "learn to") = true →
      (localClassify tz now input).category = Category.GOAL) ∧
    (∀ (tz now : Int) (input : String),
      (strIncludes (strToLower input) "read " ||
       strIncludes (strToLower input) "book" ||
       strIncludes (strToLower input) "article" ||
       strStarts input "http") = false →
      (strIncludes (strToLower input) "goal" ||
       strIncludes (strToLower input) "achieve" ||
       strIncludes (strToLower input) "learn to") = false →
      (strStarts (strToLower input) "note" ||
       strIncludes (strToLower input) "idea:" ||
       strIncludes (strToLower input) "remember") = true →
      (localClassify tz now input).category = Category.NOTE) ∧
    (∀ (tz now : Int) (input : String),
      (strIncludes (strToLower input) "read " ||
       strIncludes (strToLower input) "book" ||
       strIncludes (strToLower input) "article" ||
       strStarts input "http") = false →
      (strIncludes (strToLower input) "goal" ||
       strIncludes (strToLower input) "achieve" ||
       strIncludes (strToLower input) "learn to") = false →
      (strStarts (strToLower input) "note" ||
       strIncludes (strToLower input) "idea:" ||
       strIncludes (strToLower input) "remember") = false →
      (localClassify tz now input).category = Category.TODO) ∧
    (∀ (tz now : Int) (input : String),
      strIncludes (strToLower input) "tomorrow" = true →
      (localClassify tz now input).deadline = some (nextLocalDay9 tz now)) ∧
    (∀ (tz now : Int) (input : String),
      strIncludes (strToLower input) "tomorrow" = false →
      strIncludes (strToLower input) "tonight" = true →
      (localClassify tz now input).deadline = some (sameLocalDay20 tz now)) ∧
    (∀ (tz now : Int) (input : String),
      strIncludes (strToLower input) "tomorrow" = false →
      strIncludes (strToLower input) "tonight" = false →
      (localClassify tz now input).deadline = none) := by
  refine ⟨?_, ?_, ?_, ?_, ?_, ?_, ?_⟩
  · intro tz now input h; simp [localClassify, h]
  · intro tz now input h1 h2; simp [localClassify, h1, h2]
  · intro tz now input h1 h2 h3; simp [localClassify, h1, h2, h3]
  · intro tz now input h1 h2 h3; simp [localClassify, h1, h2, h3]
  · intro tz now input h; simp [localClassify, h]
  · intro tz now input h1 h2; simp [localClassify, h1, h2]
  · intro tz now input h1 h2; simp [localClassify, h1, h2]

/-- Witness for C7: each rule of the table at a concrete input. -/
theorem local_classify_table_witness :
    (localClassify 0 0 "Read dune").category = Category.READ ∧
    (localClassify 0 0 "achieve inbox zero").category = Category.GOAL ∧
    (localClassify 0 0 "note to self").category = Category.NOTE ∧
    (localClassify 0 0 "buy milk").category = Category.TODO ∧
    (localClassify 0 0 "buy milk tomorrow").deadline = some 118800000 ∧
    (localClassify 0 0 "buy milk tonight").deadline = some 72000000 ∧
    (localClassify 0 0 "buy milk").deadline = none :=
  ⟨local_classify_table.1 0 0 "Read dune" rfl,
   local_classify_table.2.1 0 0 "achieve inbox zero" rfl rfl,
   local_classify_table.2.2.1 0 0 "note to self" rfl rfl rfl,
   local_classify_table.2.2.2.1 0 0 "buy milk" rfl rfl rfl,
   (local_classify_table.2.2.2.2.1 0 0 "buy milk tomorrow" rfl).trans rfl,
   (local_classify_table.2.2.2.2.2.1 0 0 "buy milk tonight" rfl rfl).trans rfl,
   local_classify_table.2.2.2.2.2.2 0 0 "buy milk" rfl rfl⟩

/-- C8: with `forceRefresh = false` and a cache younger than the
24-hour TTL whose read-history filter leaves something, the call
returns up to 3 filtered cached suggestions without invoking the
remote recommender; with the cache at or past the TTL, or the filter
leaving nothing, and a key present, the remote recommender is
invoked. -/
theorem reading_cache_policy :
    (∀ (userReadItems : List String) (apiKey : String) (now : Int)
      (remote : Except String (List ReadingSuggestion))
      (shuffle : List ReadingSuggestion → List ReadingSuggestion)
      (c : CacheEntry),
      now - c.timestamp < READING_CACHE_TTL →
      unreadOf userReadItems c.data ≠ [] →
      (getReadingSuggestion (some c) userReadItems false apiKey now remote
        shuffle).result = Except.ok ((unreadOf userReadItems c.data).take 3) ∧
      (getReadingSuggestion (some c) userReadItems false apiKey now remote
        shuffle).remoteCalled = false) ∧
    (∀ (userReadItems : List String) (forceRefresh : Bool) (apiKey : String)
      (now : Int) (remote : Except String (List ReadingSuggestion))
      (shuffle : List ReadingSuggestion → List ReadingSuggestion)
      (c : CacheEntry),
      now - c.timestamp ≥ READING_CACHE_TTL → apiKey ≠ "" →
      (getReadingSuggestion (some c) userReadItems forceRefresh apiKey now
        remote shuffle).remoteCalled = true) ∧
    (∀ (userReadItems : List String) (apiKey : String) (now : Int)
      (remote : Except String (List ReadingSuggestion))
      (shuffle : List ReadingSuggestion → List ReadingSuggestion)
      (c : CacheEntry),
      unreadOf userReadItems c.data = [] → apiKey ≠ "" →
      (getReadingSuggestion (some c) userReadItems false apiKey now remote
        shuffle).remoteCalled = true) := by
  refine ⟨?_, ?_, ?_⟩
  · intro userReadItems apiKey now remote shuffle c h1 h2
    constructor <;> simp [getReadingSuggestion, h1, h2]
  · intro userReadItems forceRefresh apiKey now remote shuffle c h1 h2
    have h3 : ¬ (now - c.timestamp < READING_CACHE_TTL) := by omega
    cases remote with
    | error e => simp [getReadingSuggestion, h2, h3]
    | ok items =>
      by_cases hi : items = [] <;> simp [getReadingSuggestion, h2, h3, hi]
  · intro userReadItems apiKey now remote shuffle c h1 h2
    cases remote with
    | error e => simp [getReadingSuggestion, h1, h2]
    | ok items =>
      by_cases hi : items = [] <;> simp [getReadingSuggestion, h1, h2, hi]

/-- A concrete cached suggestion for the C8 witness. -/
theorem reading_cache_policy_witness :
    (getReadingSuggestion
      (some { timestamp := 0,
              data := [{ title := "A", url := "https://a.com",
                         source := "A", reason := "r" }] })
      [] false "" 82800000 (Except.error "x") id).result =
      Except.ok [{ title := "A", url := "https://a.com", source := "A",
                   reason := "r" }] ∧
    (getReadingSuggestion
      (some { timestamp := 0,
              data := [{ title := "A", url := "https://a.com",
                         source := "A", reason := "r" }] })
      [] false "" 82800000 (Except.error "x") id).remoteCalled = false ∧
    (getReadingSuggestion
      (some { timestamp := 0,
              data := [{ title := "A", url := "https://a.com",
                         source := "A", reason := "r" }] })
      [] false "key" 90000000
      (Except.ok [{ title := "B", url := "https://b.com", source := "B",
                    reason := "r" }]) id).remoteCalled = true ∧
    (getReadingSuggestion
      (some { timestamp := 0,
              data := [{ title := "A", url := "https://a.com",
                         source := "A", reason := "r" }] })
      ["https://a.com"] false "key" 1000
      (Except.ok [{ title := "B", url := "https://b.com", source := "B",
                    reason := "r" }]) id).remoteCalled = true :=
  ⟨((reading_cache_policy.1 [] "" 82800000 (Except.error "x") id
      { timestamp := 0,
        data := [{ title := "A", url := "https://a.com", source := "A",
                   reason := "r" }] } (by decide) (by decide)).1).trans rfl,
   (reading_cache_policy.1 [] "" 82800000 (Except.error "x") id
      { timestamp := 0,
        data := [{ title := "A", url := "https://a.com", source := "A",
                   reason := "r" }] } (by decide) (by decide)).2,
   reading_cache_policy.2.1 [] false "key" 90000000
      (Except.ok [{ title := "B", url := "https://b.com", source := "B",
                    reason := "r" }]) id
      { timestamp := 0,
        data := [{ title := "A", url := "https://a.com", source := "A",
                   reason := "r" }] } (by decide) (by decide),
   reading_cache_policy.2.2 ["https://a.com"] "key" 1000
      (Except.ok [{ title := "B", url := "https://b.com", source := "B",
                    reason := "r" }]) id
      { timestamp := 0,
        data := [{ title := "A", url := "https://a.com", source := "A",
                   reason := "r" }] } (by decide) (by decide)⟩

/-- C9: a successful preview is memoized (a cached URL is answered
from the cache), and an absent key returns `null` without caching or
attempting; but a failed remote call does not produce a cached-final
`null` — `handleError` rethrows, the fallback-caching arm below it is
unreachable, the error escapes and the cache is left without an entry
for the URL, so an identical later call attempts the remote again,
contradicting the claim that a failure is final for the session. -/
theorem link_preview_failure_not_cached :
    getLinkPreview [("https://e.com/p", samplePreview)] "https://e.com/p"
      "key" "e.com" (LinkOutcome.err "boom") =
      (Except.ok (some samplePreview),
        [("https://e.com/p", samplePreview)]) ∧
    getLinkPreview [] "https://e.com/p" "" "e.com" (LinkOutcome.err "boom") =
      (Except.ok none, []) ∧
    getLinkPreview [] "https://e.com/p" "key" "e.com"
      (LinkOutcome.err "boom") = (Except.error "boom", []) ∧
    getLinkPreview [] "https://e.com/p" "key" "e.com"
      (LinkOutcome.err "API key not valid") =
      (Except.error "AUTH_ERROR", []) :=
  ⟨rfl, rfl, rfl, rfl⟩

/-- C10: one scheduler tick is a frame-preserving map: it maps
`checkItem` over the collection (never adding, removing or
reordering), each item changes in at most its `notifiedStages`
field, and completed or deadline-less items are returned exactly as
given. -/
theorem tick_frame_preserving :
    (∀ (tz now : Int) (items : List Item),
      checkReminders tz now items = items.map (checkItem tz now)) ∧
    (∀ (tz now : Int) (items : List Item),
      (checkReminders tz now items).length = items.length) ∧
    (∀ (tz now : Int) (it : Item),
      checkItem tz now it =
        { it with notifiedStages := (checkItem tz now it).notifiedStages }) ∧
    (∀ (tz now : Int) (it : Item), it.completed = true →
      checkItem tz now it = it) ∧
    (∀ (tz now : Int) (it : Item), it.deadline = none →
      checkItem tz now it = it) := by
  refine ⟨fun _ _ _ => rfl, ?_, ?_, ?_, ?_⟩
  · intro tz now items
    rw [checkReminders, List.length_map]
  · intro tz now it
    exact checkItem_frame tz now it
  · intro tz now it h
    exact checkItem_completed tz now it h
  · intro tz now it h
    exact checkItem_no_deadline tz now it h

/-- Witness for C10 at concrete items. -/
theorem tick_frame_preserving_witness :
    checkItem 0 5 completedSample = completedSample ∧
    checkItem 0 5 noDeadlineSample = noDeadlineSample ∧
    (checkReminders 0 5 [completedSample, noDeadlineSample]).length = 2 :=
  ⟨tick_frame_preserving.2.2.2.1 0 5 completedSample rfl,
   tick_frame_preserving.2.2.2.2 0 5 noDeadlineSample rfl,
   (tick_frame_preserving.2.1 0 5 [completedSample, noDeadlineSample]).trans
     rfl⟩

end MindSort
